import Mathlib

/-!
Shallow embedding of `src/api/worker/search/DbFacade.js` (tutanota fragment):
a transactional key/value storage facade over IndexedDB, used to persist a
local search index.  Pure logic of the facade and of the transaction wrapper
is translated into executable Lean definitions; the asynchronous engine
(IndexedDB) is represented by the outcomes its callbacks can deliver.
-/

namespace DbFacadeSpec

/-- A native (engine-side) error or event, as observed by the facade's
callbacks: IndexedDB errors expose a `name` and a `message`. -/
structure NativeError where
  name : String
  message : String
  deriving Repr, DecidableEq

/-- Modelled from the spec: `DbError` is imported from
`src/api/common/error/DbError`, which is not part of the provided sources.
Per the spec it is "a single error kind carrying: a human-readable message,
and an optional causing error/native event (opaque payload, preserved for
diagnostics)". -/
structure DbError where
  message : String
  cause : Option NativeError
  deriving Repr, DecidableEq

/-- A value delivered to a caller through a promise rejection.  The code only
ever constructs `dbError`; the `native` constructor exists so that the claim
"no native error object is ever delivered as the rejection value" is a
statement and not a typing triviality. -/
inductive RejectValue where
  | dbError (e : DbError)
  | native (e : NativeError)
  deriving Repr, DecidableEq

/-- `true` unless the result is a rejection carrying a raw native error. -/
def onlyDbErrors {α : Type} : Except RejectValue α → Bool
  | .error (.native _) => false
  | _ => true

/-- JS values, restricted to the shapes the facade stores and returns. -/
inductive JSValue where
  | undef
  | null
  | bool (b : Bool)
  | num (n : Int)
  | str (s : String)
  | arr (elems : List JSValue)

/-- JS truthiness: `undefined`, `null`, `false`, `0` and `""` are falsy;
every array (even empty) is truthy. -/
def truthy : JSValue → Bool
  | .undef => false
  | .null => false
  | .bool b => b
  | .num n => n != 0
  | .str s => !(s.isEmpty)
  | .arr _ => true

/-- JS `a || b`. -/
def jsOr (a b : JSValue) : JSValue :=
  if truthy a then a else b

/-- IndexedDB keys used by this facade: `string | number`. -/
inductive DbKey where
  | str (s : String)
  | num (n : Int)
  deriving Repr, DecidableEq

/-- JS `String(key)` on a `string | number` key. -/
def dbKeyToString : DbKey → String
  | .str s => s
  | .num n => toString n

/-- JS `JSON.stringify` on the modelled value shapes (its exact escaping is
irrelevant to every claim; only its presence in error messages matters). -/
def jsonStringify : JSValue → String
  | .undef => "undefined"
  | .null => "null"
  | .bool b => toString b
  | .num n => toString n
  | .str s => "\"" ++ s ++ "\""
  | .arr l =>
      "[" ++ String.intercalate "," (l.attach.map fun p => jsonStringify p.1) ++ "]"
  decreasing_by
    simp only [JSValue.arr.sizeOf_spec]
    have h := List.sizeOf_lt_of_mem p.2
    omega

/-- `extractErrorProperties`: copies every enumerable key of the error into a
fresh object and `JSON.stringify`s it.  On the modelled native errors the
enumerable keys are `name` and `message`. -/
def extractErrorProperties (e : NativeError) : String :=
  "\x7b\"name\":\"" ++ e.name ++ "\",\"message\":\"" ++ e.message ++ "\"\x7d"

/-! ## Object-store names and schema constants (top of `DbFacade.js`) -/

def SearchIndexOS : String := "SearchIndex"
def SearchIndexMetaDataOS : String := "SearchIndexMeta"
def ElementDataOS : String := "ElementData"
def MetaDataOS : String := "MetaData"
def GroupDataOS : String := "GroupMetaData"
def SearchTermSuggestionsOS : String := "SearchTermSuggestions"
def SearchIndexWordsIndex : String := "SearchIndexWords"

def DB_VERSION : Nat := 3

/-! ## Engine-side store state

The storage engine is an external collaborator: an object store behaves as a
finite map from keys to values (`put` upserts, `get` looks up, a missing key
yields `undefined`). -/

/-- The contents of one object store. -/
def Store : Type := DbKey → Option JSValue

/-- A store with no entries. -/
def emptyStore : Store := fun _ => none

/-- Engine `put(value, key)`: insert or overwrite. -/
def storePut (st : Store) (k : DbKey) (v : JSValue) : Store :=
  fun key => if key = k then some v else st key

/-- Engine `get(key)`: the stored value, or `undefined` when absent. -/
def storeGet (st : Store) (k : DbKey) : Option JSValue := st k

/-- Apply a sequence of `put` calls (in program order) to a store. -/
def applyPuts (st : Store) : List (DbKey × JSValue) → Store
  | [] => st
  | (k, v) :: rest => applyPuts (storePut st k v) rest

/-- The value of the most recent put for `key` in a sequence of puts, if any
put targeted `key`. -/
def lastPutValue : List (DbKey × JSValue) → DbKey → Option JSValue
  | [], _ => none
  | (k, v) :: rest, key =>
      match lastPutValue rest key with
      | some w => some w
      | none => if k = key then some v else none

/-! ## Transaction request operations (`IndexedDbTransaction`)

Each operation wraps a callback-style engine request into a single-resolution
promise.  The engine either completes the request, fires `onerror` (with the
`event` and the request's `error`, which IndexedDB allows to be `null`), or
throws synchronously (e.g. unknown store name), which the `catch` turns into
a `DbError`. -/

/-- What the engine does with a single request. -/
inductive ReqOutcome where
  | ok
  | reqError (event : NativeError) (requestError : Option NativeError)
  | thrown (e : NativeError)
  deriving Repr, DecidableEq

/-- Message built by `get`'s `request.onerror` handler. -/
def getOnErrorMessage (objectStore : String) (event : NativeError)
    (requestError : Option NativeError) : String :=
  "IndexedDbTransaction.get().onerror\nos: " ++ objectStore
    ++ "\nevent: " ++ extractErrorProperties event
    ++ "\nrequest.error:"
    ++ (match requestError with
        | some e => e.message
        | none => "[none]")

/-- The lookup `get` performs: in the named secondary index when one is
given, in the store itself otherwise. -/
def getLookup (os : Store) (index : Option Store) (k : DbKey) : Option JSValue :=
  match index with
  | some ix => storeGet ix k
  | none => storeGet os k

/-- `IndexedDbTransaction.get(objectStore, key, indexName?)`: looks the key up
in the named secondary index when one is given, in the store itself
otherwise; resolves with `event.target.result` (absent = `undefined`). -/
def txGet (os : Store) (index : Option Store) (objectStore : String)
    (k : DbKey) (eng : ReqOutcome) : Except RejectValue (Option JSValue) :=
  match eng with
  | .ok => .ok (getLookup os index k)
  | .reqError ev re =>
      .error (.dbError ⟨getOnErrorMessage objectStore ev re, re⟩)
  | .thrown e =>
      .error (.dbError ⟨"IndexedDbTransaction.get().catch\nos: " ++ objectStore
        ++ "\nmessage: " ++ e.message, some e⟩)

/-- The `.then(result => result || [])` step of `getAsList`. -/
def getAsListTransform (r : Option JSValue) : JSValue :=
  jsOr (r.getD JSValue.undef) (JSValue.arr [])

/-- `IndexedDbTransaction.getAsList`: same lookup as `get`, then
`result || []`. -/
def txGetAsList (os : Store) (index : Option Store) (objectStore : String)
    (k : DbKey) (eng : ReqOutcome) : Except RejectValue JSValue :=
  (txGet os index objectStore k eng).map getAsListTransform

/-- Message built by `put`'s `request.onerror` handler. -/
def putOnErrorMessage (objectStore : String) (event : NativeError)
    (requestError : Option NativeError) (k : Option DbKey) (v : JSValue) : String :=
  "IndexedDbTransaction.put().onerror\nos: " ++ objectStore
    ++ "\nevent: " ++ extractErrorProperties event
    ++ "\nrequest.error:"
    ++ (match requestError with
        | some e => e.message
        | none => "[none]")
    ++ "\nkey: " ++ (match k with
        | some key => dbKeyToString key
        | none => "null")
    ++ "\nvalue: " ++ jsonStringify v

/-- `IndexedDbTransaction.put(objectStore, key, value)` with an explicit key:
issues `objectStore.put(value, key)` and resolves with `event.target.result`,
which the engine sets to the key of the stored entry.  Returns the resulting
store state together with the promise outcome. -/
def txPut (os : Store) (objectStore : String) (k : DbKey) (v : JSValue)
    (eng : ReqOutcome) : Store × Except RejectValue DbKey :=
  match eng with
  | .ok => (storePut os k v, .ok k)
  | .reqError ev re =>
      (os, .error (.dbError ⟨putOnErrorMessage objectStore ev re (some k) v, re⟩))
  | .thrown e =>
      (os, .error (.dbError ⟨"IndexedDbTransaction.put().catch\nos: " ++ objectStore
        ++ "\nmessage: " ++ e.message
        ++ "\nkey: " ++ dbKeyToString k
        ++ "\nvalue: " ++ jsonStringify v, some e⟩))

/-- Message built by `delete`'s `request.onerror` handler. -/
def deleteOnErrorMessage (objectStore : String) (event : NativeError)
    (requestError : Option NativeError) : String :=
  "IndexedDbTransaction.delete().onerror\nos: " ++ objectStore
    ++ "\nevent: " ++ extractErrorProperties event
    ++ "\nrequest.error:"
    ++ (match requestError with
        | some e => e.message
        | none => "[none]")

/-- `IndexedDbTransaction.delete(objectStore, key)`: removes the entry and
resolves with no value. -/
def txDelete (os : Store) (objectStore : String) (k : DbKey)
    (eng : ReqOutcome) : Store × Except RejectValue Unit :=
  match eng with
  | .ok => ((fun key => if key = k then none else os key), .ok ())
  | .reqError ev re =>
      (os, .error (.dbError ⟨deleteOnErrorMessage objectStore ev re, re⟩))
  | .thrown e =>
      (os, .error (.dbError ⟨"IndexedDbTransaction.delete().catch\nos: " ++ objectStore
        ++ "\nmessage: " ++ e.message, some e⟩))

/-- `getAll`'s `request.onerror` handler.  The source builds the message as
`"..." + objectStore + "..." + request.error && request.error.message`: JS
gives `+` higher precedence than `&&`, so the whole concatenation is the left
operand of `&&`.  The concatenation is a non-empty string, hence truthy, so
the expression evaluates to `request.error.message` alone — the store name is
not part of the delivered message.  When `request.error` is `null` the
right operand `request.error.message` throws a `TypeError` inside the handler
and the callback never runs (`none`). -/
def getAllOnError (objectStore : String) (event : NativeError)
    (requestError : Option NativeError) : Option RejectValue :=
  match requestError with
  | some e => some (.dbError ⟨e.message, requestError⟩)
  | none => none

/-- `IndexedDbTransaction.getAll(objectStore)`: iterates a forward cursor over
`entries` and resolves with every (key, value) pair in cursor order;
`none` when the error handler itself threw and the promise never settles. -/
def txGetAll (entries : List (DbKey × JSValue)) (objectStore : String)
    (eng : ReqOutcome) :
    Option (Except RejectValue (List (DbKey × JSValue))) :=
  match eng with
  | .ok => some (.ok entries)
  | .reqError ev re => (getAllOnError objectStore ev re).map .error
  | .thrown e =>
      some (.error (.dbError ⟨"IndexedDbTransaction.getAll().catch\nos: " ++ objectStore
        ++ "\nmessage: " ++ e.message, some e⟩))

/-- `s` contains `pat` as a substring. -/
def strContains (s pat : String) : Prop :=
  ∃ a b, s = a ++ pat ++ b

/-! ## The transaction settlement (`IndexedDbTransaction` constructor, `wait`)

The constructor wires `transaction.onerror`, `transaction.oncomplete` and
`transaction.onabort` to a single `Promise.fromCallback` callback, whose
first invocation settles the promise; every later invocation is ignored.
`wait()` returns that one promise. -/

/-- Terminal (or spurious later) events the engine fires on a transaction. -/
inductive EngineTxEvent where
  | complete
  | abort
  | error (transactionError : Option NativeError) (event : NativeError)
  deriving Repr, DecidableEq

/-- Settlement of a promise: resolved, or rejected with some value. -/
inductive Settlement where
  | resolved
  | rejected (r : RejectValue)
  deriving Repr, DecidableEq

/-- Message built by the constructor's `transaction.onerror` handler. -/
def txOnErrorMessage (transactionError : Option NativeError)
    (event : NativeError) : String :=
  "IndexedDbTransaction.transaction.onerror, \nevent:" ++ extractErrorProperties event
    ++ "\ntransaction.error"
    ++ (match transactionError with
        | some e => e.message
        | none => "")
    ++ "\nevent.target.error: " ++ event.message

/-- How one engine event settles the constructor's promise. -/
def txEventSettlement : EngineTxEvent → Settlement
  | .complete => .resolved
  | .abort => .resolved
  | .error te ev => .rejected (.dbError ⟨txOnErrorMessage te ev, te⟩)

/-- The settlement of the transaction promise given the sequence of engine
events, in the order they fire: the first callback invocation wins and the
promise never settles (`none`) only when no event ever fires. -/
def txSettlement : List EngineTxEvent → Option Settlement
  | [] => none
  | e :: _ => some (txEventSettlement e)

/-- `wait()` returns `this._promise` — the same promise on every call; the
call index is irrelevant to the result. -/
def txWait (events : List EngineTxEvent) (callIndex : Nat) : Option Settlement :=
  txSettlement events

/-- `true` unless the settlement is a rejection carrying a raw native error. -/
def settlementOnlyDbErrors : Option Settlement → Bool
  | some (.rejected (.native _)) => false
  | _ => true

/-! ## The lazy connection handle and the facade state

`LazyLoaded` is imported from `src/api/common/utils/LazyLoaded`, which is not
part of the provided sources; its observable states are modelled from the
spec. -/

/-- Modelled from the spec: the observable states of the `LazyLoaded`
handle — "`getAsync()` returns the same in-flight or already-resolved outcome
on every call until `reset()` is invoked; after `reset()`, the next
`getAsync()` call invokes the factory again. `isLoaded()` reports whether a
resolved value is currently cached (not pending, not reset)." -/
inductive LazyState (α : Type) where
  | unloaded
  | pending
  | loaded (value : α)
  deriving Repr, DecidableEq

/-- Modelled from the spec: `isLoaded()` is `true` exactly when a resolved
value is currently cached. -/
def LazyState.isLoaded {α : Type} : LazyState α → Bool
  | .loaded _ => true
  | _ => false

/-- Modelled from the spec: after `reset()` the next `getAsync()` invokes the
factory again; while pending or loaded it returns the cached outcome. -/
def LazyState.getAsyncRunsFactory {α : Type} : LazyState α → Bool
  | .unloaded => true
  | _ => false

/-- An open IndexedDB connection, as far as the facade observes it. -/
structure Connection where
  name : String
  deriving Repr, DecidableEq

/-- The mutable state of a `DbFacade` instance. -/
structure FacadeState where
  db : LazyState Connection
  activeTransactions : Nat
  deriving Repr, DecidableEq

/-! ## `DbFacade.deleteDatabase` -/

/-- Engine-visible actions a `deleteDatabase` call performs. -/
inductive DeleteAction where
  | closeConnection
  | engineDelete (name : String)
  deriving Repr, DecidableEq

/-- How one `deleteDatabase()` invocation ends. -/
inductive DeleteOutcome where
  | resolved
  | rejected (r : RejectValue)
  | retry (delayMs : Nat)
  deriving Repr, DecidableEq

/-- One invocation of `deleteDatabase()`: when the handle holds no resolved
connection it resolves as a no-op; when transactions are active it schedules
a retry of itself after 150 ms; otherwise it closes the connection and asks
the engine to delete the database, resetting the handle on success.
`engineDeleteErr` is `none` when the engine's delete request succeeds and
carries the `onerror` event otherwise. -/
def deleteDatabaseStep (st : FacadeState) (engineDeleteErr : Option NativeError) :
    FacadeState × List DeleteAction × DeleteOutcome :=
  match st.db with
  | .loaded conn =>
      if st.activeTransactions > 0 then
        (st, [], .retry 150)
      else
        match engineDeleteErr with
        | none =>
            ({ st with db := .unloaded },
              [.closeConnection, .engineDelete conn.name], .resolved)
        | some ev =>
            (st, [.closeConnection, .engineDelete conn.name],
              .rejected (.dbError
                ⟨"could not delete database " ++ conn.name, some ev⟩))
  | _ => (st, [], .resolved)

/-- Result of iterating `deleteDatabase` over successive retry polls. -/
inductive DeleteRun where
  | retrying (polls : Nat)
  | finished (actions : List DeleteAction) (outcome : DeleteOutcome)
  deriving Repr, DecidableEq

/-- One more poll happened before the run under it ended. -/
def bumpPoll : DeleteRun → DeleteRun
  | .retrying k => .retrying (k + 1)
  | .finished a o => .finished a o

/-- The close/delete step once a poll observes zero active transactions. -/
def finishDelete (name : String) (engineDeleteErr : Option NativeError) : DeleteRun :=
  match engineDeleteErr with
  | none => .finished [.closeConnection, .engineDelete name] .resolved
  | some ev =>
      .finished [.closeConnection, .engineDelete name]
        (.rejected (.dbError ⟨"could not delete database " ++ name, some ev⟩))

/-- Iterate the retry loop of `deleteDatabase` on a loaded connection:
the list holds the active-transaction count observed at each successive
invocation (each separated by the 150 ms delay).  As long as every observed
count is positive the call keeps retrying; at the first zero observation it
performs the close/delete step. -/
def deleteDatabaseRun (name : String) (engineDeleteErr : Option NativeError) :
    List Nat → DeleteRun
  | [] => .retrying 0
  | 0 :: _ => finishDelete name engineDeleteErr
  | (_ + 1) :: rest => bumpPoll (deleteDatabaseRun name engineDeleteErr rest)

/-! ## The upgrade handler (`onupgradeneeded` in the `DbFacade` constructor) -/

/-- Engine-visible actions the upgrade handler performs, in order. -/
inductive UpgradeAction where
  | callbackInvoked
  | deleteStore (name : String)
  | createStore (name : String)
  | createIndex (store index keyPath : String) (unique : Bool)
  deriving Repr, DecidableEq

/-- The six known stores, in the order `_deleteObjectStores` receives them. -/
def knownStores : List String :=
  [SearchIndexOS, ElementDataOS, MetaDataOS, GroupDataOS,
    SearchTermSuggestionsOS, SearchIndexMetaDataOS]

/-- `DbFacade._deleteObjectStores`: deletes each named store inside its own
`try`, logging and ignoring any error, so the attempted deletions do not
depend on `deleteFails` (which says which deletions throw). -/
def deleteObjectStores (oss : List String) (deleteFails : String → Bool) :
    List UpgradeAction :=
  oss.map UpgradeAction.deleteStore

/-- The store-creation sequence of the upgrade handler, in source order,
ending with the unique index on the metadata store keyed by `"word"`. -/
def createActions : List UpgradeAction :=
  [.createStore SearchIndexOS, .createStore SearchIndexMetaDataOS,
    .createStore ElementDataOS, .createStore MetaDataOS, .createStore GroupDataOS,
    .createStore SearchTermSuggestionsOS,
    .createIndex SearchIndexMetaDataOS SearchIndexWordsIndex "word" true]

/-- Result of one run of the upgrade handler: the action trace and, when a
creation step threw, the `DbError` passed to the open callback. -/
structure UpgradeResult where
  actions : List UpgradeAction
  openError : Option DbError
  deriving Repr, DecidableEq

/-- The destructive prefix of the upgrade handler: when the stored version
differs from `DB_VERSION` and is not 0, it first invokes the user callback
(when one was supplied) and then destroys every known store. -/
def destructiveActions (oldVersion : Nat) (hasCallback : Bool)
    (deleteFails : String → Bool) : List UpgradeAction :=
  if oldVersion ≠ DB_VERSION ∧ oldVersion ≠ 0 then
    (if hasCallback then [UpgradeAction.callbackInvoked] else [])
      ++ deleteObjectStores knownStores deleteFails
  else []

/-- The `onupgradeneeded` handler: the destructive prefix, then the schema
recreation inside a `try`; `createFailsAfter k` means the `k`-th creation
step threw, which reports a `DbError` to the open callback. -/
def onupgradeneeded (oldVersion : Nat) (hasCallback : Bool)
    (deleteFails : String → Bool) (createFailsAfter : Option Nat) : UpgradeResult :=
  match createFailsAfter with
  | none => ⟨destructiveActions oldVersion hasCallback deleteFails ++ createActions, none⟩
  | some k =>
      ⟨destructiveActions oldVersion hasCallback deleteFails ++ createActions.take k,
        some ⟨"could not create object store searchindex", none⟩⟩

/-! ## `DbFacade` construction and `open` -/

/-- What the engine does with the `indexedDB.open` request (after the
upgrade handler, when one ran, has finished). -/
inductive OpenEngine where
  | success
  | openErr (requestError : Option NativeError) (event : NativeError)
  | upgradeCreateFail (e : NativeError)
  | thrown (e : NativeError)
  deriving Repr, DecidableEq

/-- Message built by the open request's `onerror` handler. -/
def openOnErrorMessage (id : String) (requestError : Option NativeError)
    (event : NativeError) : String :=
  "DbFacade.open.onerror: " ++ id
    ++ "\nrequest.error: "
    ++ (match requestError with
        | some e => extractErrorProperties e
        | none => "\x7b\x7d")
    ++ "\nevent: " ++ extractErrorProperties event
    ++ "\nevent.target.error" ++ event.message

/-- The outcome of the lazy factory that `open(id)` triggers: rejected with a
`DbError` when IndexedDB is unsupported, when the open request errors, when
the upgrade handler failed to create a store, or when accessing IndexedDB
throws; a connection named `id` otherwise. -/
def openModel (supported : Bool) (id : String) (eng : OpenEngine) :
    Except RejectValue Connection :=
  if !supported then
    .error (.dbError ⟨"indexedDB not supported", none⟩)
  else
    match eng with
    | .success => .ok ⟨id⟩
    | .openErr re ev => .error (.dbError ⟨openOnErrorMessage id re ev, re⟩)
    | .upgradeCreateFail e =>
        .error (.dbError ⟨"could not create object store searchindex", some e⟩)
    | .thrown e =>
        .error (.dbError ⟨"exception when accessing indexeddb " ++ id, some e⟩)

/-! ## `DbFacade.createTransaction` and the active-transaction counter -/

/-- `createTransaction`: awaits the lazy handle (propagating its rejection),
then constructs the transaction wrapper; on success it increments
`_activeTransactions` and registers a `wait().finally` hook that decrements
it once on settlement; when the engine refuses to start the transaction the
counter is untouched and a `DbError` is thrown.  Returns the promise outcome
and the new counter value. -/
def createTransaction (dbResult : Except RejectValue Connection)
    (engineTx : Except NativeError Unit) (counter : Nat) :
    Except RejectValue Unit × Nat :=
  match dbResult with
  | .error r => (.error r, counter)
  | .ok _ =>
      match engineTx with
      | .ok _ => (.ok (), counter + 1)
      | .error e =>
          (.error (.dbError ⟨"could not create transaction", some e⟩), counter)

/-- Counter-relevant events in a facade's lifetime: a transaction is
constructed (with a fresh identifier), construction fails, or a constructed
transaction's `wait()` settles (running the `finally` hook). -/
inductive TxEvent where
  | createOk (tid : Nat)
  | createFail (tid : Nat)
  | settle (tid : Nat)
  deriving Repr, DecidableEq

/-- Effect of one event on `_activeTransactions`. -/
def stepCounter (n : Nat) : TxEvent → Nat
  | .createOk _ => n + 1
  | .createFail _ => n
  | .settle _ => n - 1

/-- The counter after a trace of events, starting from `n`. -/
def runCounter (n : Nat) : List TxEvent → Nat
  | [] => n
  | e :: rest => runCounter (stepCounter n e) rest

/-- The identifiers of created-but-not-yet-settled transactions after a
trace, starting from `live`. -/
def runLive (live : List Nat) : List TxEvent → List Nat
  | [] => live
  | .createOk t :: rest => runLive (t :: live) rest
  | .createFail _ :: rest => runLive live rest
  | .settle t :: rest => runLive (live.erase t) rest

/-- Well-formed traces from a given history: a construction uses a fresh
identifier, and a settlement is the unique settlement of a live transaction
(the `finally` hook of `wait()` runs exactly once per transaction). -/
def wfFrom (used live : List Nat) : List TxEvent → Bool
  | [] => true
  | .createOk t :: rest => !(used.contains t) && wfFrom (t :: used) (t :: live) rest
  | .createFail _ :: rest => wfFrom used live rest
  | .settle t :: rest => live.contains t && wfFrom used (live.erase t) rest

/-- Well-formed traces of a fresh facade. -/
def wfTrace (tr : List TxEvent) : Bool := wfFrom [] [] tr

/-- `_activeTransactions` after a trace of a fresh facade. -/
def counterAfter (tr : List TxEvent) : Nat := runCounter 0 tr

/-- The created-but-not-yet-settled transactions after a trace of a fresh
facade. -/
def liveAfter (tr : List TxEvent) : List Nat := runLive [] tr

/-! ## Classifiers used in the statements -/

/-- Is this upgrade action a store deletion? -/
def isDeleteStore : UpgradeAction → Bool
  | .deleteStore _ => true
  | _ => false

/-- Is this upgrade action a store creation? -/
def isCreateStore : UpgradeAction → Bool
  | .createStore _ => true
  | _ => false

/-- Is this upgrade action an index creation? -/
def isCreateIndex : UpgradeAction → Bool
  | .createIndex _ _ _ _ => true
  | _ => false

/-- `true` unless the delete outcome is a rejection carrying a raw native
error. -/
def deleteOutcomeOnlyDbErrors : DeleteOutcome → Bool
  | .rejected (.native _) => false
  | _ => true

/-- `true` unless a settled `getAll` promise rejected with a raw native
error (an unsettled promise delivers nothing to the caller). -/
def optOnlyDbErrors {α : Type} : Option (Except RejectValue α) → Bool
  | some r => onlyDbErrors r
  | none => true

/-! ## Theorems -/

theorem storeGet_applyPuts (st : Store) (puts : List (DbKey × JSValue)) (k : DbKey) :
    storeGet (applyPuts st puts) k =
      match lastPutValue puts k with
      | some v => some v
      | none => storeGet st k := by
  induction puts generalizing st with
  | nil => rfl
  | cons p rest ih =>
      obtain ⟨k1, v1⟩ := p
      rw [applyPuts, ih, lastPutValue]
      cases hrest : lastPutValue rest k with
      | some w => rfl
      | none =>
          by_cases hk : k1 = k
          · subst hk
            simp [storeGet, storePut]
          · simp [storeGet, storePut, hk, Ne.symm hk]

/-- C5: within one transaction, after any sequence of `put(store, key, value)`
calls, `get(store, key)` resolves with the value passed to the most recent
put for that key, and each of those `put` calls resolves with the key of the
stored entry. -/
theorem put_then_get_resolves_last_put (st : Store) (objectStore : String)
    (puts : List (DbKey × JSValue)) (k : DbKey) (v : JSValue)
    (h : lastPutValue puts k = some v) :
    txGet (applyPuts st puts) none objectStore k .ok = .ok (some v) ∧
    ∀ (os : Store) (key : DbKey) (w : JSValue),
      (txPut os objectStore key w .ok).2 = .ok key := by
  constructor
  · rw [txGet]
    have hg := storeGet_applyPuts st puts k
    rw [h] at hg
    rw [getLookup, hg]
  · intro os key w
    rfl

theorem put_then_get_resolves_last_put_witness :
    txGet (applyPuts emptyStore
        [(DbKey.str "k1", JSValue.num 1), (DbKey.str "k2", JSValue.num 2),
          (DbKey.str "k1", JSValue.num 3)])
        none ElementDataOS (DbKey.str "k1") .ok = .ok (some (JSValue.num 3)) ∧
    (txPut emptyStore ElementDataOS (DbKey.str "k1") (JSValue.num 3) .ok).2
      = .ok (DbKey.str "k1") := by
  have h := put_then_get_resolves_last_put emptyStore ElementDataOS
    [(DbKey.str "k1", JSValue.num 1), (DbKey.str "k2", JSValue.num 2),
      (DbKey.str "k1", JSValue.num 3)]
    (DbKey.str "k1") (JSValue.num 3) (by rfl)
  exact ⟨h.1, h.2 emptyStore (DbKey.str "k1") (JSValue.num 3)⟩

/-- C6: for a key with no stored entry (with or without an index name),
`getAsList` resolves with the empty array, never an absent value, while
`get` on the same key resolves with the absent result and does not reject. -/
theorem getAsList_absent_key_empty_list (os : Store) (index : Option Store)
    (objectStore : String) (k : DbKey) (h : getLookup os index k = none) :
    txGetAsList os index objectStore k .ok = .ok (JSValue.arr []) ∧
    txGet os index objectStore k .ok = .ok none := by
  refine ⟨?_, ?_⟩
  · rw [txGetAsList, txGet, h]
    rfl
  · rw [txGet, h]

theorem getAsList_absent_key_empty_list_witness :
    txGetAsList emptyStore none ElementDataOS (DbKey.str "missing") .ok
        = .ok (JSValue.arr []) ∧
    txGet emptyStore none ElementDataOS (DbKey.str "missing") .ok = .ok none :=
  getAsList_absent_key_empty_list emptyStore none ElementDataOS
    (DbKey.str "missing") rfl

/-- C9: `getAsList` collapses every falsy stored value (0, the empty string,
`false`, `null`) to the empty array, so such a stored association is
indistinguishable from an absent one through `getAsList`. -/
theorem getAsList_falsy_value_empty_list (os os2 : Store)
    (index index2 : Option Store) (objectStore objectStore2 : String)
    (k k2 : DbKey) (v : JSValue)
    (hstored : getLookup os index k = some v) (hfalsy : truthy v = false)
    (habsent : getLookup os2 index2 k2 = none) :
    txGetAsList os index objectStore k .ok = .ok (JSValue.arr []) ∧
    txGetAsList os index objectStore k .ok
      = txGetAsList os2 index2 objectStore2 k2 .ok := by
  have h1 : txGetAsList os index objectStore k .ok = .ok (JSValue.arr []) := by
    rw [txGetAsList, txGet, hstored]
    simp [Except.map, getAsListTransform, jsOr, hfalsy]
  refine ⟨h1, ?_⟩
  rw [h1, txGetAsList, txGet, habsent]
  rfl

theorem getAsList_falsy_value_empty_list_witness :
    txGetAsList (storePut emptyStore (DbKey.str "k") (JSValue.num 0)) none
        ElementDataOS (DbKey.str "k") .ok = .ok (JSValue.arr []) ∧
    txGetAsList (storePut emptyStore (DbKey.str "k") (JSValue.num 0)) none
        ElementDataOS (DbKey.str "k") .ok
      = txGetAsList emptyStore none ElementDataOS (DbKey.str "gone") .ok :=
  getAsList_falsy_value_empty_list
    (storePut emptyStore (DbKey.str "k") (JSValue.num 0)) emptyStore none none
    ElementDataOS ElementDataOS (DbKey.str "k") (DbKey.str "gone")
    (JSValue.num 0) (by rfl) (by rfl) rfl

/-- C10: `deleteDatabase()` called while the lazy handle is still pending (an
`open` was issued but has not resolved) resolves immediately as a successful
no-op: the state is untouched, no close and no engine delete happen. -/
theorem deleteDatabase_pending_open_noop (n : Nat) (err : Option NativeError) :
    deleteDatabaseStep ⟨LazyState.pending, n⟩ err
      = (⟨LazyState.pending, n⟩, [], DeleteOutcome.resolved) := by
  rfl

/-- C3: the transaction promise settles exactly once — the first engine event
decides it and later events are ignored; it resolves when the transaction
completes or aborts, rejects with the typed `DbError` exactly when the engine
reports a transaction-level error, and every `wait()` call returns that same
settlement. -/
theorem wait_settles_once (e : EngineTxEvent) (rest : List EngineTxEvent) :
    (∃ s, txSettlement (e :: rest) = some s) ∧
    (txSettlement (e :: rest) = some Settlement.resolved
      ↔ e = EngineTxEvent.complete ∨ e = EngineTxEvent.abort) ∧
    ((∃ d, txSettlement (e :: rest) = some (Settlement.rejected (RejectValue.dbError d)))
      ↔ ∃ te ev, e = EngineTxEvent.error te ev) ∧
    txSettlement (e :: rest) = txSettlement [e] ∧
    ∀ i j : Nat, txWait (e :: rest) i = txWait (e :: rest) j := by
  refine ⟨⟨txEventSettlement e, rfl⟩, ?_, ?_, rfl, fun i j => rfl⟩
  · cases e <;> simp [txSettlement, txEventSettlement]
  · cases e <;> simp [txSettlement, txEventSettlement]

theorem wait_settles_once_witness :
    txSettlement [EngineTxEvent.complete, EngineTxEvent.error none ⟨"late", "late"⟩]
        = some Settlement.resolved ∧
    (∃ d, txSettlement [EngineTxEvent.error (some ⟨"AbortError", "oops"⟩) ⟨"e", "m"⟩]
        = some (Settlement.rejected (RejectValue.dbError d))) := by
  constructor
  · exact (wait_settles_once EngineTxEvent.complete
      [EngineTxEvent.error none ⟨"late", "late"⟩]).2.1.mpr (Or.inl rfl)
  · exact (wait_settles_once
      (EngineTxEvent.error (some ⟨"AbortError", "oops"⟩) ⟨"e", "m"⟩) []).2.2.1.mpr
      ⟨some ⟨"AbortError", "oops"⟩, ⟨"e", "m"⟩, rfl⟩

theorem deleteDatabaseRun_all_positive (name : String) (err : Option NativeError)
    (counts : List Nat) (h : ∀ n ∈ counts, 0 < n) :
    deleteDatabaseRun name err counts = .retrying counts.length := by
  induction counts with
  | nil => rfl
  | cons n rest ih =>
      have hn : 0 < n := h n (List.mem_cons_self n rest)
      have hrest : ∀ m ∈ rest, 0 < m := fun m hm => h m (List.mem_cons_of_mem n hm)
      obtain ⟨m, rfl⟩ : ∃ m, n = m + 1 := ⟨n - 1, by omega⟩
      rw [deleteDatabaseRun, ih hrest]
      rfl

theorem deleteDatabaseRun_first_zero (name : String) (err : Option NativeError)
    (counts rest : List Nat) (h : ∀ n ∈ counts, 0 < n) :
    deleteDatabaseRun name err (counts ++ 0 :: rest)
      = match err with
        | none => .finished [.closeConnection, .engineDelete name] .resolved
        | some ev =>
            .finished [.closeConnection, .engineDelete name]
              (.rejected (.dbError ⟨"could not delete database " ++ name, some ev⟩)) := by
  induction counts with
  | nil =>
      rw [List.nil_append, deleteDatabaseRun]
      cases err <;> rfl
  | cons n tail ih =>
      have hn : 0 < n := h n (List.mem_cons_self n tail)
      have htail : ∀ m ∈ tail, 0 < m := fun m hm => h m (List.mem_cons_of_mem n hm)
      obtain ⟨m, rfl⟩ : ∃ m, n = m + 1 := ⟨n - 1, by omega⟩
      rw [List.cons_append, deleteDatabaseRun, ih htail]
      cases err <;> rfl

/-- C1: `deleteDatabase()` on a never-opened connection resolves as a no-op;
with the connection loaded and transactions active it issues nothing and
retries after the fixed 150 ms delay, without bound, as long as every poll
observes a positive count; at the first poll observing zero it closes the
connection, issues the engine delete, and on success resets the lazy handle
so a subsequent `open()` runs the factory again. -/
theorem deleteDatabase_behavior (st : FacadeState) (err : Option NativeError)
    (conn : Connection) (name : String) (counts rest : List Nat) :
    (st.db = LazyState.unloaded →
      deleteDatabaseStep st err = (st, [], DeleteOutcome.resolved)) ∧
    (st.db = LazyState.loaded conn → 0 < st.activeTransactions →
      deleteDatabaseStep st err = (st, [], DeleteOutcome.retry 150)) ∧
    ((∀ n ∈ counts, 0 < n) →
      deleteDatabaseRun name err counts = DeleteRun.retrying counts.length) ∧
    ((∀ n ∈ counts, 0 < n) →
      deleteDatabaseRun name none (counts ++ 0 :: rest)
        = DeleteRun.finished [DeleteAction.closeConnection, DeleteAction.engineDelete name]
            DeleteOutcome.resolved) ∧
    (st.db = LazyState.loaded conn → st.activeTransactions = 0 →
      deleteDatabaseStep st none
        = ({ st with db := LazyState.unloaded },
            [DeleteAction.closeConnection, DeleteAction.engineDelete conn.name],
            DeleteOutcome.resolved)) ∧
    LazyState.getAsyncRunsFactory (LazyState.unloaded : LazyState Connection) = true := by
  refine ⟨?_, ?_, ?_, ?_, ?_, rfl⟩
  · intro hdb
    obtain ⟨db, a⟩ := st
    cases hdb
    rfl
  · intro hdb hpos
    obtain ⟨db, a⟩ := st
    cases hdb
    simp only [deleteDatabaseStep, if_pos hpos]
  · exact deleteDatabaseRun_all_positive name err counts
  · exact fun h => deleteDatabaseRun_first_zero name none counts rest h
  · intro hdb hzero
    obtain ⟨db, a⟩ := st
    cases hdb
    simp only at hzero
    subst hzero
    rfl

theorem deleteDatabase_behavior_witness :
    deleteDatabaseStep ⟨LazyState.unloaded, 0⟩ none
      = (⟨LazyState.unloaded, 0⟩, [], DeleteOutcome.resolved) ∧
    deleteDatabaseStep ⟨LazyState.loaded ⟨"search-db"⟩, 2⟩ none
      = (⟨LazyState.loaded ⟨"search-db"⟩, 2⟩, [], DeleteOutcome.retry 150) ∧
    deleteDatabaseRun "search-db" none [3, 2, 1] = DeleteRun.retrying 3 ∧
    deleteDatabaseRun "search-db" none [1, 0]
      = DeleteRun.finished
          [DeleteAction.closeConnection, DeleteAction.engineDelete "search-db"]
          DeleteOutcome.resolved ∧
    deleteDatabaseStep ⟨LazyState.loaded ⟨"search-db"⟩, 0⟩ none
      = (⟨LazyState.unloaded, 0⟩,
          [DeleteAction.closeConnection, DeleteAction.engineDelete "search-db"],
          DeleteOutcome.resolved) := by
  refine ⟨?_, ?_, ?_, ?_, ?_⟩
  · exact (deleteDatabase_behavior ⟨LazyState.unloaded, 0⟩ none ⟨"search-db"⟩
      "search-db" [] []).1 rfl
  · exact (deleteDatabase_behavior ⟨LazyState.loaded ⟨"search-db"⟩, 2⟩ none
      ⟨"search-db"⟩ "search-db" [] []).2.1 rfl (by decide)
  · exact (deleteDatabase_behavior ⟨LazyState.unloaded, 0⟩ none ⟨"search-db"⟩
      "search-db" [3, 2, 1] []).2.2.1 (by decide)
  · exact (deleteDatabase_behavior ⟨LazyState.unloaded, 0⟩ none ⟨"search-db"⟩
      "search-db" [1] []).2.2.2.1 (by decide)
  · exact (deleteDatabase_behavior ⟨LazyState.loaded ⟨"search-db"⟩, 0⟩ none
      ⟨"search-db"⟩ "search-db" [] []).2.2.2.2.1 rfl rfl

theorem createActions_take_count_callback (j : Nat) :
    (createActions.take j).count UpgradeAction.callbackInvoked = 0 := by
  have hsub := (List.take_sublist j createActions).count_le UpgradeAction.callbackInvoked
  have hz : createActions.count UpgradeAction.callbackInvoked = 0 := by rfl
  omega

theorem createActions_take_filter_delete (j : Nat) :
    (createActions.take j).filter isDeleteStore = [] := by
  have hsub := (List.take_sublist j createActions).filter isDeleteStore
  have hz : createActions.filter isDeleteStore = [] := by rfl
  rw [hz] at hsub
  exact List.sublist_nil.mp hsub

/-- C4: an upgrade pass from a non-zero stored version different from the
expected one invokes the user callback (when supplied) exactly once and
before any store is destroyed, then destroys every known store regardless of
which deletions throw; from version 0 neither callback nor destruction
happens; every pass that completes recreates exactly the six stores and
exactly one unique-constrained index on the metadata store keyed by "word",
and a creation failure surfaces the typed error to the open callback. -/
theorem upgrade_pass_behavior (v : Nat) (cb : Bool) (df df2 : String → Bool)
    (cf : Option Nat) (k : Nat) (id : String) (ne : NativeError) :
    (v ≠ DB_VERSION → v ≠ 0 → cb = true →
      (onupgradeneeded v cb df cf).actions.count UpgradeAction.callbackInvoked = 1 ∧
      (onupgradeneeded v cb df cf).actions.head? = some UpgradeAction.callbackInvoked) ∧
    (v ≠ DB_VERSION → v ≠ 0 →
      (onupgradeneeded v cb df cf).actions.filter isDeleteStore
        = knownStores.map UpgradeAction.deleteStore) ∧
    (v = 0 →
      (onupgradeneeded v cb df cf).actions.count UpgradeAction.callbackInvoked = 0 ∧
      (onupgradeneeded v cb df cf).actions.filter isDeleteStore = []) ∧
    (cf = none →
      (onupgradeneeded v cb df cf).actions.filter isCreateStore
        = [UpgradeAction.createStore SearchIndexOS,
            UpgradeAction.createStore SearchIndexMetaDataOS,
            UpgradeAction.createStore ElementDataOS,
            UpgradeAction.createStore MetaDataOS,
            UpgradeAction.createStore GroupDataOS,
            UpgradeAction.createStore SearchTermSuggestionsOS] ∧
      (onupgradeneeded v cb df cf).actions.filter isCreateIndex
        = [UpgradeAction.createIndex SearchIndexMetaDataOS SearchIndexWordsIndex
            "word" true] ∧
      (onupgradeneeded v cb df cf).openError = none) ∧
    (cf = some k →
      (onupgradeneeded v cb df cf).openError
        = some ⟨"could not create object store searchindex", none⟩) ∧
    openModel true id (OpenEngine.upgradeCreateFail ne)
      = .error (.dbError ⟨"could not create object store searchindex", some ne⟩) ∧
    onupgradeneeded v cb df cf = onupgradeneeded v cb df2 cf := by
  have hdestr : ∀ h1 : v ≠ DB_VERSION, ∀ h2 : v ≠ 0,
      destructiveActions v true df
        = UpgradeAction.callbackInvoked :: knownStores.map UpgradeAction.deleteStore := by
    intro h1 h2
    rw [destructiveActions, if_pos ⟨h1, h2⟩]
    rfl
  refine ⟨?_, ?_, ?_, ?_, ?_, rfl, rfl⟩
  · intro h1 h2 h3
    subst h3
    cases cf with
    | none =>
        rw [onupgradeneeded]
        simp only [hdestr h1 h2]
        constructor
        · rw [List.count_append]
          rfl
        · rfl
    | some j =>
        rw [onupgradeneeded]
        simp only [hdestr h1 h2]
        constructor
        · rw [List.count_append, createActions_take_count_callback]
          rfl
        · rfl
  · intro h1 h2
    have hd : destructiveActions v cb df
        = (if cb then [UpgradeAction.callbackInvoked] else [])
          ++ knownStores.map UpgradeAction.deleteStore := by
      rw [destructiveActions, if_pos ⟨h1, h2⟩]
      rfl
    cases cf with
    | none =>
        rw [onupgradeneeded]
        simp only [hd, List.append_assoc, List.filter_append]
        cases cb <;> rfl
    | some j =>
        rw [onupgradeneeded]
        simp only [hd, List.append_assoc, List.filter_append,
          createActions_take_filter_delete]
        cases cb <;> rfl
  · intro h0
    subst h0
    have hd : destructiveActions 0 cb df = [] := by
      rw [destructiveActions, if_neg]
      intro hcontra
      exact hcontra.2 rfl
    cases cf with
    | none =>
        rw [onupgradeneeded]
        simp only [hd, List.nil_append]
        exact ⟨rfl, rfl⟩
    | some j =>
        rw [onupgradeneeded]
        simp only [hd, List.nil_append]
        exact ⟨createActions_take_count_callback j, createActions_take_filter_delete j⟩
  · intro hcf
    subst hcf
    rw [onupgradeneeded]
    refine ⟨?_, ?_, rfl⟩
    · rw [destructiveActions]
      by_cases hv : v ≠ DB_VERSION ∧ v ≠ 0
      · rw [if_pos hv]
        simp only [List.append_assoc, List.filter_append]
        cases cb <;> rfl
      · rw [if_neg hv]
        rfl
    · rw [destructiveActions]
      by_cases hv : v ≠ DB_VERSION ∧ v ≠ 0
      · rw [if_pos hv]
        simp only [List.append_assoc, List.filter_append]
        cases cb <;> rfl
      · rw [if_neg hv]
        rfl
  · intro hcf
    subst hcf
    rfl

theorem upgrade_pass_behavior_witness :
    (onupgradeneeded 1 true (fun _ => true) none).actions.count
        UpgradeAction.callbackInvoked = 1 ∧
    (onupgradeneeded 1 true (fun _ => true) none).actions.head?
        = some UpgradeAction.callbackInvoked ∧
    (onupgradeneeded 1 true (fun _ => true) none).actions.filter isDeleteStore
        = knownStores.map UpgradeAction.deleteStore ∧
    (onupgradeneeded 0 false (fun _ => false) none).actions.count
        UpgradeAction.callbackInvoked = 0 ∧
    (onupgradeneeded 1 true (fun _ => true) none).openError = none ∧
    (onupgradeneeded 1 true (fun _ => true) (some 2)).openError
        = some ⟨"could not create object store searchindex", none⟩ := by
  have h1 := (upgrade_pass_behavior 1 true (fun _ => true) (fun _ => true) none 2 "db" ⟨"e", "m"⟩).1
    (by decide) (by decide) rfl
  have h2 := (upgrade_pass_behavior 1 true (fun _ => true) (fun _ => true) none 2 "db" ⟨"e", "m"⟩).2.1
    (by decide) (by decide)
  have h3 := ((upgrade_pass_behavior 0 false (fun _ => false) (fun _ => false) none 2 "db" ⟨"e", "m"⟩).2.2.1
    rfl).1
  have h4 := ((upgrade_pass_behavior 1 true (fun _ => true) (fun _ => true) none 2 "db" ⟨"e", "m"⟩).2.2.2.1
    rfl).2.2
  have h5 := (upgrade_pass_behavior 1 true (fun _ => true) (fun _ => true) (some 2) 2 "db" ⟨"e", "m"⟩).2.2.2.2.1
    rfl
  exact ⟨h1.1, h1.2, h2, h3, h4, h5⟩

theorem runCounter_eq_runLive_length (tr : List TxEvent) :
    ∀ used live : List Nat, wfFrom used live tr = true →
      runCounter live.length tr = (runLive live tr).length := by
  induction tr with
  | nil => intro used live _; rfl
  | cons e rest ih =>
      intro used live hwf
      cases e with
      | createOk t =>
          rw [wfFrom, Bool.and_eq_true] at hwf
          have step : runCounter live.length (TxEvent.createOk t :: rest)
              = runCounter (t :: live).length rest := rfl
          rw [step, runLive, ih (t :: used) (t :: live) hwf.2]
      | createFail t =>
          rw [wfFrom] at hwf
          have step : runCounter live.length (TxEvent.createFail t :: rest)
              = runCounter live.length rest := rfl
          rw [step, runLive, ih used live hwf]
      | settle t =>
          rw [wfFrom, Bool.and_eq_true] at hwf
          have hmem : t ∈ live := List.mem_of_elem_eq_true hwf.1
          have hlen : (live.erase t).length = live.length - 1 :=
            List.length_erase_of_mem hmem
          have step : runCounter live.length (TxEvent.settle t :: rest)
              = runCounter (live.length - 1) rest := rfl
          rw [step, runLive, ← hlen, ih used (live.erase t) hwf.2]

/-- C2: over every well-formed facade history, `_activeTransactions` equals
the number of created-but-not-yet-settled transactions: each successful
construction increments it once, a failed construction leaves it unchanged,
and the `finally` hook decrements it once when the transaction settles. -/
theorem active_transaction_counter_invariant (tr : List TxEvent)
    (dbc : Connection) (r : RejectValue) (e : NativeError)
    (etx : Except NativeError Unit) (n : Nat) (h : wfTrace tr = true) :
    counterAfter tr = (liveAfter tr).length ∧
    (createTransaction (.ok dbc) (.ok ()) n).2 = n + 1 ∧
    (createTransaction (.ok dbc) (.error e) n).2 = n ∧
    (createTransaction (.error r) etx n).2 = n ∧
    (∀ m t, stepCounter m (TxEvent.settle t) = m - 1) := by
  refine ⟨?_, rfl, rfl, rfl, fun m t => rfl⟩
  exact runCounter_eq_runLive_length tr [] [] h

theorem active_transaction_counter_invariant_witness :
    counterAfter
        [TxEvent.createOk 0, TxEvent.createFail 1, TxEvent.createOk 2, TxEvent.settle 0]
      = (liveAfter
          [TxEvent.createOk 0, TxEvent.createFail 1, TxEvent.createOk 2, TxEvent.settle 0]).length ∧
    (createTransaction (.ok ⟨"search-db"⟩) (.ok ()) 5).2 = 6 :=
  ⟨(active_transaction_counter_invariant
      [TxEvent.createOk 0, TxEvent.createFail 1, TxEvent.createOk 2, TxEvent.settle 0]
      ⟨"search-db"⟩ (RejectValue.dbError ⟨"m", none⟩) ⟨"e", "m"⟩ (.ok ()) 5
      (by decide)).1,
    (active_transaction_counter_invariant [] ⟨"search-db"⟩
      (RejectValue.dbError ⟨"m", none⟩) ⟨"e", "m"⟩ (.ok ()) 5 rfl).2.1⟩

/-- C7: every failure surfaced by open, deleteDatabase, createTransaction and
every transaction operation is the typed `DbError` (wrapping the native
cause); no native error or event is ever the rejection value itself. -/
theorem all_rejections_are_db_errors (supported : Bool) (id : String)
    (oe : OpenEngine) (st : FacadeState) (derr : Option NativeError)
    (etx : Except NativeError Unit) (n : Nat) (os : Store) (ix : Option Store)
    (name : String) (k : DbKey) (v : JSValue) (eng : ReqOutcome)
    (entries : List (DbKey × JSValue)) (evs : List EngineTxEvent) :
    onlyDbErrors (openModel supported id oe) = true ∧
    deleteOutcomeOnlyDbErrors (deleteDatabaseStep st derr).2.2 = true ∧
    onlyDbErrors (createTransaction (openModel supported id oe) etx n).1 = true ∧
    onlyDbErrors (txGet os ix name k eng) = true ∧
    onlyDbErrors (txGetAsList os ix name k eng) = true ∧
    onlyDbErrors (txPut os name k v eng).2 = true ∧
    onlyDbErrors (txDelete os name k eng).2 = true ∧
    optOnlyDbErrors (txGetAll entries name eng) = true ∧
    settlementOnlyDbErrors (txSettlement evs) = true := by
  refine ⟨?_, ?_, ?_, ?_, ?_, ?_, ?_, ?_, ?_⟩
  · cases supported <;> cases oe <;> rfl
  · obtain ⟨db, a⟩ := st
    cases db with
    | unloaded => rfl
    | pending => rfl
    | loaded conn =>
        cases a with
        | zero => cases derr <;> rfl
        | succ m =>
            simp only [deleteDatabaseStep, if_pos (Nat.succ_pos m)]
            rfl
  · cases supported <;> cases oe <;> cases etx <;> rfl
  · cases eng <;> rfl
  · cases eng <;> rfl
  · cases eng <;> rfl
  · cases eng <;> rfl
  · cases eng with
    | ok => rfl
    | reqError ev re => cases re <;> rfl
    | thrown e2 => rfl
  · cases evs with
    | nil => rfl
    | cons e2 rest => cases e2 <;> rfl

/-- C8 (failing part): a request-level `getAll` error delivers a `DbError`
whose message is exactly the native error's message — the store name is
absent — because the `+ ... && request.error.message` precedence makes the
whole concatenation the discarded left operand of `&&`; and with a null
`request.error` the handler itself throws, so the promise never settles. -/
theorem getAll_error_message_lacks_store_name :
    txGetAll [] ElementDataOS
        (.reqError ⟨"uncaught", "uncaught"⟩ (some ⟨"DataError", "boom"⟩))
      = some (.error (.dbError ⟨"boom", some ⟨"DataError", "boom"⟩⟩)) ∧
    (∀ a b : String, "boom" ≠ a ++ ElementDataOS ++ b) ∧
    txGetAll [] ElementDataOS (.reqError ⟨"uncaught", "uncaught"⟩ none) = none ∧
    (∀ ev : NativeError, ∀ re : Option NativeError, ∀ k : DbKey, ∀ v : JSValue,
      putOnErrorMessage ElementDataOS ev re (some k) v
        = ("IndexedDbTransaction.put().onerror\nos: " ++ ElementDataOS)
          ++ ("\nevent: " ++ extractErrorProperties ev
              ++ "\nrequest.error:"
              ++ (match re with
                  | some e => e.message
                  | none => "[none]")
              ++ "\nkey: " ++ dbKeyToString k ++ "\nvalue: " ++ jsonStringify v)) := by
  refine ⟨rfl, ?_, rfl, ?_⟩
  · intro a b hab
    have hlen := congrArg String.length hab
    rw [String.length_append, String.length_append] at hlen
    have h1 : ("boom" : String).length = 4 := rfl
    have h2 : ElementDataOS.length = 11 := rfl
    omega
  · intro ev re k v
    cases re <;> simp only [putOnErrorMessage.eq_def, String.append_assoc]

end DbFacadeSpec
